import Mathlib

/-!
Verification of the summarization pipeline of the YouTube-Obsidian repository.

The development shallowly embeds the two core components:

* `services/text_validator.py` — the repetition detector `is_repetitive`;
* `services/gemini_client.py` — the `GeminiClient` class: payload
  construction (`_build_parts`), defensive response parsing
  (`_extract_text`, `_extract_finish_reason`), the transport retry loop
  (`_request`) and the content-quality retry loop (`summarize_audio`).

Modelling conventions:

* JSON values are modelled by the inductive `Json`; Python `dict.get`,
  truthiness (`x or default`), indexing and `isinstance` checks are
  modelled by explicit helper functions.  A JSON `null` stored under a
  key is indistinguishable from a missing key through `dict.get` in
  Python (both give `None`); `pyGetKey` reflects this.
* Python exceptions are modelled by the `Exc` type and `Except Exc`
  results; the `try/except (KeyError, TypeError, IndexError)` blocks of
  the source are modelled by `catchKTI`, which converts exactly those
  three exception kinds to a `None` result and lets any other
  (in particular `AttributeError`) propagate.
* Machine floating-point arithmetic of the source (temperatures, the
  `0.4` and `0.3` threshold comparisons, backoff delays) is modelled by
  exact rational arithmetic over `ℚ`; the concrete constants involved
  (0.7, 0.3, 2.0, thresholds 2/5 and 3/10) make the modelled comparisons
  agree with the IEEE-754 ones on all inputs reachable here.
* The random jitter `random.uniform(0, 3)` of the backoff is modelled by
  an arbitrary function `ℕ → ℚ` giving the draw of each transport retry.
* `re` regular expressions are modelled by their matching semantics:
  `(.{2,50})\1{3,}` (search) holds iff some substring of 2 to 50
  non-newline characters occurs four or more times consecutively, and
  splitting on `[。．.!\n]+` yields the maximal runs of non-separator
  characters (empty pieces are discarded by the source after stripping).
* Audio bytes are modelled as `List ℕ` with every element `< 256`;
  `base64.b64encode`/`b64decode` are modelled by `b64encode`/`b64decode`.
-/

/-- A JSON value, as produced by `res.json()`. -/
inductive Json where
  | null : Json
  | jbool : Bool → Json
  | jnum : ℚ → Json
  | jstr : String → Json
  | jarr : List Json → Json
  | jobj : List (String × Json) → Json

/-- Python exceptions that the modelled code can raise. -/
inductive Exc where
  | keyError : Exc
  | typeError : Exc
  | indexError : Exc
  | attrError : Exc
  | httpError : ℕ → Exc
  | runtimeError : Exc
  | userExc : Exc
deriving DecidableEq

/-- Python truthiness of a JSON value (`bool(x)`). -/
def pyTruthy : Json → Bool
  | .null => false
  | .jbool b => b
  | .jnum q => q ≠ 0
  | .jstr s => s ≠ ""
  | .jarr xs => !xs.isEmpty
  | .jobj kvs => !kvs.isEmpty

/-- First value bound to key `k` in an association list. -/
def jlookup : List (String × Json) → String → Option Json
  | [], _ => none
  | (k', v) :: rest, k => if k' = k then some v else jlookup rest k

/-- `d.get(k)` on a Python dict produced from JSON: a missing key and an
explicit JSON `null` both give Python `None`. -/
def pyGetKey (kvs : List (String × Json)) (k : String) : Option Json :=
  match jlookup kvs k with
  | some .null => none
  | v => v

/-- `x or default` on the optional result of a `.get`: Python `None` and
falsy values are replaced by the default. -/
def orFalsyO (o : Option Json) (d : Json) : Json :=
  match o with
  | none => d
  | some j => if pyTruthy j then j else d

/-- `v.get(k)` where `v` is an arbitrary value: an `AttributeError` is
raised when `v` is not a dict. -/
def jsonGet (v : Json) (k : String) : Except Exc (Option Json) :=
  match v with
  | .jobj kvs => .ok (pyGetKey kvs k)
  | _ => .error .attrError

/-- `v[0]` on an arbitrary value: element for a non-empty list, one-character
string for a non-empty string, `IndexError` for empty ones, `KeyError` for a
dict (JSON keys are strings), `TypeError` otherwise. -/
def jIndex0 (v : Json) : Except Exc Json :=
  match v with
  | .jarr [] => .error .indexError
  | .jarr (x :: _) => .ok x
  | .jstr s =>
    match s.data with
    | [] => .error .indexError
    | c :: _ => .ok (.jstr (String.singleton c))
  | .jobj _ => .error .keyError
  | _ => .error .typeError

/-- `isinstance(v, list)`. -/
def isArr : Json → Bool
  | .jarr _ => true
  | _ => false

/-- `isinstance(v, dict)`. -/
def isObj : Json → Bool
  | .jobj _ => true
  | _ => false

/-- `data.get("candidates") or []` — the shared first step of both
extraction helpers of `GeminiClient`. -/
def candidatesOf (data : Json) : Except Exc Json :=
  match jsonGet data "candidates" with
  | .error e => .error e
  | .ok c => .ok (orFalsyO c (.jarr []))

/-- Body of `GeminiClient._extract_text` before its `try/except`:
`if not candidates: return None`, `candidates[0].get("content") or {}`,
`content.get("parts") or []`, the list and dict shape checks, and
finally `first.get("text")`. -/
def textBody (data : Json) : Except Exc (Option Json) :=
  match candidatesOf data with
  | .error e => .error e
  | .ok candidates =>
    if !pyTruthy candidates then .ok none
    else
      match jIndex0 candidates with
      | .error e => .error e
      | .ok c0 =>
        match jsonGet c0 "content" with
        | .error e => .error e
        | .ok contentOpt =>
          match jsonGet (orFalsyO contentOpt (.jobj [])) "parts" with
          | .error e => .error e
          | .ok partsOpt =>
            let parts := orFalsyO partsOpt (.jarr [])
            if !pyTruthy parts || !isArr parts then .ok none
            else
              match jIndex0 parts with
              | .error e => .error e
              | .ok first =>
                if !isObj first then .ok none
                else jsonGet first "text"

/-- Body of `GeminiClient._extract_finish_reason` before its
`try/except`: `if not candidates: return None`, then
`candidates[0].get("finishReason")`. -/
def frBody (data : Json) : Except Exc (Option Json) :=
  match candidatesOf data with
  | .error e => .error e
  | .ok candidates =>
    if !pyTruthy candidates then .ok none
    else
      match jIndex0 candidates with
      | .error e => .error e
      | .ok c0 => jsonGet c0 "finishReason"

/-- `except (KeyError, TypeError, IndexError): return None`; other
exceptions (notably `AttributeError`) propagate. -/
def catchKTI (r : Except Exc (Option Json)) : Except Exc (Option Json) :=
  match r with
  | .error .keyError => .ok none
  | .error .typeError => .ok none
  | .error .indexError => .ok none
  | r => r

/-- `GeminiClient._extract_text`. -/
def _extract_text (data : Json) : Except Exc (Option Json) :=
  catchKTI (textBody data)

/-- `GeminiClient._extract_finish_reason`. -/
def _extract_finish_reason (data : Json) : Except Exc (Option Json) :=
  catchKTI (frBody data)

/-- `finish_reason in _ACCEPT_REASONS` with
`_ACCEPT_REASONS = {"STOP", "MAX_TOKENS", None}`: absence (Python
`None`) and the two accepted tags test true, any other hashable value
(a string, number or boolean) tests false, and an unhashable value —
a JSON array or object — makes the set-membership test itself raise
`TypeError`.  (A stored JSON `null` reads back as Python `None`
through `pyGetKey`, so `some .null` is unreachable from a parsed
response; it denotes Python `None` and tests true.) -/
def acceptReason : Option Json → Except Exc Bool
  | none => .ok true
  | some .null => .ok true
  | some (.jstr s) => .ok (s = "STOP" || s = "MAX_TOKENS")
  | some (.jarr _) => .error .typeError
  | some (.jobj _) => .error .typeError
  | some _ => .ok false

/-! ## The repetition detector (`services/text_validator.py`) -/

/-- The characters stripped by Python `str.strip()` — the code points with
the Unicode `White_Space` property. -/
def pySpaceChars : List Char :=
  ['\t', '\n', '\x0b', '\x0c', '\r', '\x1c', '\x1d', '\x1e', '\x1f', ' ',
   '\u0085', ' ', ' ', ' ', ' ', ' ', ' ',
   ' ', ' ', ' ', ' ', ' ', ' ', ' ',
   ' ', ' ', ' ', ' ', '　']

def isPySpace (c : Char) : Bool := pySpaceChars.contains c

/-- Python `s.strip()`. -/
def pyStrip (cs : List Char) : List Char :=
  ((cs.dropWhile isPySpace).reverse.dropWhile isPySpace).reverse

/-- A character matched by the sentence-splitting class `[。．.!\n]`. -/
def isSentenceSep (c : Char) : Bool :=
  c = '。' || c = '．' || c = '.' || c = '!' || c = '\n'

/-- `[s.strip() for s in _RE_SENTENCE_SPLIT.split(text) if s.strip()]`:
the pieces between maximal runs of separator characters, stripped, with
empty results discarded. -/
def sentencesOf (cs : List Char) : List (List Char) :=
  ((cs.splitOnP isSentenceSep).map pyStrip).filter (fun s => !s.isEmpty)

/-- Does the substring of length `L` at offset `i` consist of non-newline
characters and repeat (at least) four times consecutively? -/
def repeatsAt (cs : List Char) (i L : ℕ) : Bool :=
  let unit := (cs.drop i).take L
  decide (i + 4 * L ≤ cs.length) &&
  unit.all (fun c => c ≠ '\n') &&
  decide ((cs.drop (i + L)).take L = unit) &&
  decide ((cs.drop (i + 2 * L)).take L = unit) &&
  decide ((cs.drop (i + 3 * L)).take L = unit)

/-- Matching semantics of `_RE_CONSECUTIVE.search(text)` with the pattern
`(.{2,50})\1{3,}`: some unit of 2–50 non-newline characters occurs four or
more times in immediate succession. -/
def hasConsecutiveRepeat (cs : List Char) : Bool :=
  (List.range cs.length).any fun i =>
    (List.range 49).any fun l2 => repeatsAt cs i (l2 + 2)

/-- Layer B of `is_repetitive`: with five or more sentences, the fraction
of distinct sentences is below the `0.4` threshold (`d / n < 2/5` over the
exact rationals, i.e. `5 * d < 2 * n`). -/
def layerB (cs : List Char) : Bool :=
  let sentences := sentencesOf cs
  decide (5 ≤ sentences.length) &&
  decide (5 * sentences.dedup.length < 2 * sentences.length)

/-- Layer C of `is_repetitive`: for texts of length at least 11, the
number of distinct 10-character windows divided by the number of window
positions is below the `0.3` threshold (`g / m < 3/10`, i.e.
`10 * g < 3 * m`). -/
def layerC (cs : List Char) : Bool :=
  decide (11 ≤ cs.length) &&
  decide (10 * (((List.range (cs.length - 10 + 1)).map
      (fun i => (cs.drop i).take 10)).dedup).length
    < 3 * (cs.length - 10 + 1))

/-- `text_validator.is_repetitive`. -/
def is_repetitive (text : String) : Bool :=
  if text.data.length < 20 then false
  else if hasConsecutiveRepeat text.data then true
  else if layerB text.data then true
  else if layerC text.data then true
  else false

/-- `is_repetitive(text)` applied to an arbitrary extracted JSON value, as
`summarize_audio` does: `len()` succeeds on strings, lists and dicts and
raises `TypeError` otherwise; a non-string of length at least 20 reaches
`_RE_CONSECUTIVE.search`, which raises `TypeError` on non-strings. -/
def pyIsRepetitiveJson : Json → Except Exc Bool
  | .jstr s => .ok (is_repetitive s)
  | .jarr xs => if xs.length < 20 then .ok false else .error .typeError
  | .jobj kvs => if kvs.length < 20 then .ok false else .error .typeError
  | _ => .error .typeError

/-! ## Base64 (`base64.b64encode` / `base64.b64decode`) -/

def b64chars : List Char :=
  ['A', 'B', 'C', 'D', 'E', 'F', 'G', 'H', 'I', 'J', 'K', 'L', 'M',
   'N', 'O', 'P', 'Q', 'R', 'S', 'T', 'U', 'V', 'W', 'X', 'Y', 'Z',
   'a', 'b', 'c', 'd', 'e', 'f', 'g', 'h', 'i', 'j', 'k', 'l', 'm',
   'n', 'o', 'p', 'q', 'r', 's', 't', 'u', 'v', 'w', 'x', 'y', 'z',
   '0', '1', '2', '3', '4', '5', '6', '7', '8', '9', '+', '/']

def encChar (n : ℕ) : Char := b64chars.getD n '?'

def decChar (c : Char) : ℕ := b64chars.indexOf c

/-- `base64.b64encode` on a byte list (each element `< 256`). -/
def b64encode : List ℕ → List Char
  | [] => []
  | [a] => [encChar (a / 4), encChar (a % 4 * 16), '=', '=']
  | [a, b] => [encChar (a / 4), encChar (a % 4 * 16 + b / 16),
               encChar (b % 16 * 4), '=']
  | a :: b :: c :: rest =>
      encChar (a / 4) :: encChar (a % 4 * 16 + b / 16) ::
      encChar (b % 16 * 4 + c / 64) :: encChar (c % 64) :: b64encode rest

/-- `base64.b64decode` on well-padded input. -/
def b64decode : List Char → List ℕ
  | c1 :: c2 :: c3 :: c4 :: rest =>
      if c3 = '=' then
        [decChar c1 * 4 + decChar c2 / 16]
      else if c4 = '=' then
        [decChar c1 * 4 + decChar c2 / 16,
         decChar c2 % 16 * 16 + decChar c3 / 4]
      else
        (decChar c1 * 4 + decChar c2 / 16) ::
        (decChar c2 % 16 * 16 + decChar c3 / 4) ::
        (decChar c3 % 4 * 64 + decChar c4) :: b64decode rest
  | _ => []

theorem decChar_encChar : ∀ n, n < 64 → decChar (encChar n) = n := by decide

theorem encChar_ne_pad : ∀ n, n < 64 → encChar n ≠ '=' := by decide

theorem b64_roundtrip : ∀ bs : List ℕ, (∀ b ∈ bs, b < 256) →
    b64decode (b64encode bs) = bs
  | [], _ => rfl
  | [a], h => by
    have ha : a < 256 := h a (by simp)
    simp only [b64encode, b64decode, eq_self_iff_true, if_true]
    rw [decChar_encChar _ (by omega), decChar_encChar _ (by omega)]
    congr 1
    omega
  | [a, b], h => by
    have ha : a < 256 := h a (by simp)
    have hb : b < 256 := h b (by simp)
    simp only [b64encode, b64decode, eq_self_iff_true, if_true]
    rw [if_neg (encChar_ne_pad _ (by omega))]
    rw [decChar_encChar _ (by omega), decChar_encChar _ (by omega),
        decChar_encChar _ (by omega)]
    congr 1
    · omega
    congr 1
    omega
  | a :: b :: c :: rest, h => by
    have ha : a < 256 := h a (by simp)
    have hb : b < 256 := h b (by simp)
    have hc : c < 256 := h c (by simp)
    have ih := b64_roundtrip rest (fun x hx => h x (by simp [hx]))
    simp only [b64encode, b64decode]
    rw [if_neg (encChar_ne_pad _ (by omega)), if_neg (encChar_ne_pad _ (by omega))]
    rw [decChar_encChar _ (by omega), decChar_encChar _ (by omega),
        decChar_encChar _ (by omega), decChar_encChar _ (by omega)]
    rw [ih]
    congr 1
    · omega
    congr 1
    · omega
    congr 1
    omega

/-! ## The Gemini client (`services/gemini_client.py`) -/

/-- A content part of the generation payload, as built by `_build_parts`
and `summarize_audio`. -/
inductive GPart where
  | file_data : String → GPart
  | inline_data : String → List Char → GPart
  | textPart : String → GPart
deriving DecidableEq

/-- `GeminiClient._build_parts`: audio strictly larger than 20 MiB is
uploaded out of band (one POST to the upload endpoint, whose successful
response carries the file URI `uploadUri`); otherwise the bytes are
embedded inline, base64-encoded.  The second component counts the POSTs
made to the upload endpoint. -/
def _build_parts (mp3_bytes : List ℕ) (uploadUri : String) : List GPart × ℕ :=
  if mp3_bytes.length > 20 * 1024 * 1024 then
    ([GPart.file_data uploadUri], 1)
  else
    ([GPart.inline_data "audio/mp3" (b64encode mp3_bytes)], 0)

/-- An HTTP response of the generation endpoint: status code and parsed
JSON body. -/
structure HttpResponse where
  status : ℕ
  body : Json

/-- Outcome of one `_request` call: the `(text, finishReason)` pair on
success, or a raised exception. -/
inductive ReqResult where
  | okr : Option Json → Option Json → ReqResult
  | exc : Exc → ReqResult

/-- A notification passed to the injected notifier callback. -/
inductive NotifyMsg where
  | transportWait : ℕ → ℚ → NotifyMsg
  | partsMissing : NotifyMsg
  | badFinish : Option Json → ℕ → NotifyMsg
  | repetitiveText : ℕ → NotifyMsg
  | contentExhausted : NotifyMsg

/-- Trace of one `_request` call: generation POSTs made, backoff sleeps,
notifications emitted, and the outcome. -/
structure ReqTrace where
  calls : ℕ
  sleeps : List ℚ
  notes : List NotifyMsg
  result : ReqResult

/-- `res.status_code in (429, 503)`. -/
def retryable (st : ℕ) : Bool := st = 429 || st = 503

/-- The statuses on which `requests.Response.raise_for_status` raises
`HTTPError`: the 4xx and 5xx ranges. -/
def isErrStatus (st : ℕ) : Bool := decide (400 ≤ st) && decide (st < 600)

/-- The `(text, finishReason)` extraction of `_request` (lines 113–117):
`raise_for_status`, then `_extract_text` and `_extract_finish_reason`,
either of which can raise `AttributeError` past its `try/except`. -/
def stopResult (r : HttpResponse) : ReqResult :=
  if isErrStatus r.status then .exc (.httpError r.status)
  else
    match _extract_text r.body with
    | .error e => .exc e
    | .ok t =>
      match _extract_finish_reason r.body with
      | .error e => .exc e
      | .ok fr => .okr t fr

/-- The transport retry loop of `GeminiClient._request`
(`for retry in range(5)`): `retry` is the loop index, `fuel` the number
of iterations left (`retry + fuel = 5` at every call), `s` the index in
the generation-response stream `resp` of the next POST.  On 429/503 the
loop notifies, sleeps `2^retry + jitr retry` and retries; `jitr` models
the `random.uniform(0, 3)` draw of each retry.  A raising notifier
propagates. -/
def requestGo (nf : NotifyMsg → Option Exc) (resp : ℕ → HttpResponse)
    (jitr : ℕ → ℚ) : ℕ → ℕ → ℕ → ReqTrace
  | _, 0, _ => ⟨0, [], [], .exc .runtimeError⟩
  | retry, fuel + 1, s =>
    let r := resp s
    if retryable r.status then
      let w : ℚ := 2 ^ retry + jitr retry
      match nf (.transportWait r.status w) with
      | some e => ⟨1, [], [.transportWait r.status w], .exc e⟩
      | none =>
        let t := requestGo nf resp jitr (retry + 1) fuel (s + 1)
        ⟨t.calls + 1, w :: t.sleeps, .transportWait r.status w :: t.notes,
         t.result⟩
    else ⟨1, [], [], stopResult r⟩

/-- `GeminiClient._request`, starting at index `s` of the response
stream: five transport attempts beginning at `retry = 0`. -/
def _request (nf : NotifyMsg → Option Exc) (resp : ℕ → HttpResponse)
    (jitr : ℕ → ℚ) (s : ℕ) : ReqTrace :=
  requestGo nf resp jitr 0 5 s

/-- Result of `summarize_audio`: the accepted text value, the `None`
("not applicable") outcome, or a raised exception. -/
inductive SummarizeResult where
  | accepted : Json → SummarizeResult
  | nullResult : SummarizeResult
  | exc : Exc → SummarizeResult

/-- Trace of the content-quality loop: generation POSTs, the temperature
of each generation payload sent in attempt order, notifications, sleeps,
and the outcome. -/
structure CTrace where
  genCalls : ℕ
  temps : List ℚ
  notes : List NotifyMsg
  sleeps : List ℚ
  result : SummarizeResult

/-- The temperature of content-quality attempt `a`:
`min(_BASE_TEMPERATURE + attempt * _TEMPERATURE_STEP, 2.0)` with base
`0.7` and step `0.3`. -/
def tempOf (a : ℕ) : ℚ := min (7/10 + (a : ℚ) * (3/10)) 2

/-- The content-quality retry loop of `GeminiClient.summarize_audio`
(`for attempt in range(3)`): `a` is the attempt index, `fuel` the
attempts left (`a + fuel = 3` at every call), `s` the response-stream
index.  Each attempt sends a payload whose generation config carries
`temperature = min(0.7 + a * 0.3, 2.0)`, performs one `_request`
(transport retries included, with jitter draws `jit a`), and classifies
the outcome exactly as the source: missing text returns `None`
immediately; a finish reason outside `{STOP, MAX_TOKENS, None}` or a
repetitive text retries with the next temperature (but an unhashable
finish reason — a JSON array or object — raises `TypeError` from the
set-membership test itself, which propagates); otherwise the text is
accepted.  Exhausted attempts notify and return `None`. -/
def contentGo (nf : NotifyMsg → Option Exc) (resp : ℕ → HttpResponse)
    (jit : ℕ → ℕ → ℚ) : ℕ → ℕ → ℕ → CTrace
  | _, 0, _ =>
    match nf .contentExhausted with
    | some e => ⟨0, [], [.contentExhausted], [], .exc e⟩
    | none => ⟨0, [], [.contentExhausted], [], .nullResult⟩
  | a, fuel + 1, s =>
    let temp : ℚ := tempOf a
    let rt := requestGo nf resp (jit a) 0 5 s
    match rt.result with
    | .exc e => ⟨rt.calls, [temp], rt.notes, rt.sleeps, .exc e⟩
    | .okr none _ =>
      match nf .partsMissing with
      | some e =>
        ⟨rt.calls, [temp], rt.notes ++ [.partsMissing], rt.sleeps, .exc e⟩
      | none =>
        ⟨rt.calls, [temp], rt.notes ++ [.partsMissing], rt.sleeps,
         .nullResult⟩
    | .okr (some t) fr =>
      match acceptReason fr with
      | .error e => ⟨rt.calls, [temp], rt.notes, rt.sleeps, .exc e⟩
      | .ok true =>
        match pyIsRepetitiveJson t with
        | .error e => ⟨rt.calls, [temp], rt.notes, rt.sleeps, .exc e⟩
        | .ok true =>
          match nf (.repetitiveText a) with
          | some e =>
            ⟨rt.calls, [temp], rt.notes ++ [.repetitiveText a], rt.sleeps,
             .exc e⟩
          | none =>
            let next := contentGo nf resp jit (a + 1) fuel (s + rt.calls)
            ⟨rt.calls + next.genCalls, temp :: next.temps,
             rt.notes ++ [.repetitiveText a] ++ next.notes,
             rt.sleeps ++ next.sleeps, next.result⟩
        | .ok false => ⟨rt.calls, [temp], rt.notes, rt.sleeps, .accepted t⟩
      | .ok false =>
        match nf (.badFinish fr a) with
        | some e =>
          ⟨rt.calls, [temp], rt.notes ++ [.badFinish fr a], rt.sleeps, .exc e⟩
        | none =>
          let next := contentGo nf resp jit (a + 1) fuel (s + rt.calls)
          ⟨rt.calls + next.genCalls, temp :: next.temps,
           rt.notes ++ [.badFinish fr a] ++ next.notes,
           rt.sleeps ++ next.sleeps, next.result⟩

/-- Trace of a whole `summarize_audio` call. -/
structure STrace where
  uploadCalls : ℕ
  parts : List GPart
  genCalls : ℕ
  temps : List ℚ
  notes : List NotifyMsg
  sleeps : List ℚ
  result : SummarizeResult

/-- `GeminiClient.summarize_audio`: builds the audio parts (uploading out
of band when over the size threshold; the upload is modelled as
succeeding with file URI `uploadUri`), appends the prompt text part, and
runs the content-quality loop over the generation-response stream
`resp`. -/
def summarize_audio (nf : NotifyMsg → Option Exc) (mp3_bytes : List ℕ)
    (prompt : String) (uploadUri : String) (resp : ℕ → HttpResponse)
    (jit : ℕ → ℕ → ℚ) : STrace :=
  let bp := _build_parts mp3_bytes uploadUri
  let c := contentGo nf resp jit 0 3 0
  ⟨bp.2, bp.1 ++ [GPart.textPart prompt], c.genCalls, c.temps, c.notes,
   c.sleeps, c.result⟩

/-! ## Helper lemmas about the transport retry loop -/

/-- The no-op notifier that `GeminiClient.__init__` installs when none is
injected (`lambda _msg: None`). -/
def nfNoop : NotifyMsg → Option Exc := fun _ => none

theorem requestGo_zero (nf : NotifyMsg → Option Exc) (resp : ℕ → HttpResponse)
    (jitr : ℕ → ℚ) (retry s : ℕ) :
    requestGo nf resp jitr retry 0 s = ⟨0, [], [], .exc .runtimeError⟩ := rfl

theorem requestGo_stop (nf : NotifyMsg → Option Exc) (resp : ℕ → HttpResponse)
    (jitr : ℕ → ℚ) (retry fuel s : ℕ)
    (h : retryable (resp s).status = false) :
    requestGo nf resp jitr retry (fuel + 1) s =
      ⟨1, [], [], stopResult (resp s)⟩ := by
  simp [requestGo, h]

theorem requestGo_retry (nf : NotifyMsg → Option Exc) (resp : ℕ → HttpResponse)
    (jitr : ℕ → ℚ) (retry fuel s : ℕ)
    (h : retryable (resp s).status = true)
    (hnf : nf (.transportWait (resp s).status (2 ^ retry + jitr retry)) = none) :
    requestGo nf resp jitr retry (fuel + 1) s =
      ⟨(requestGo nf resp jitr (retry + 1) fuel (s + 1)).calls + 1,
       (2 ^ retry + jitr retry) ::
         (requestGo nf resp jitr (retry + 1) fuel (s + 1)).sleeps,
       .transportWait (resp s).status (2 ^ retry + jitr retry) ::
         (requestGo nf resp jitr (retry + 1) fuel (s + 1)).notes,
       (requestGo nf resp jitr (retry + 1) fuel (s + 1)).result⟩ := by
  simp [requestGo, h, hnf]

/-- When every response in the window is 429/503 and the notifier never
raises, the transport loop burns all its fuel: one POST and one backoff
sleep `2^retry + jitter(retry)` per iteration, ending in the
`RuntimeError` of exhaustion. -/
theorem requestGo_all_retry (nf : NotifyMsg → Option Exc)
    (resp : ℕ → HttpResponse) (jitr : ℕ → ℚ) (hnf : ∀ m, nf m = none) :
    ∀ fuel retry s, (∀ i, i < fuel → retryable (resp (s + i)).status = true) →
    requestGo nf resp jitr retry fuel s =
      ⟨fuel,
       (List.range fuel).map (fun i => 2 ^ (retry + i) + jitr (retry + i)),
       (List.range fuel).map (fun i =>
         .transportWait (resp (s + i)).status
           (2 ^ (retry + i) + jitr (retry + i))),
       .exc .runtimeError⟩ := by
  intro fuel
  induction fuel with
  | zero => intro retry s _; simp [requestGo_zero]
  | succ fuel ih =>
    intro retry s h
    have h0 : retryable (resp s).status = true := by
      have := h 0 (by omega)
      simpa using this
    rw [requestGo_retry nf resp jitr retry fuel s h0 (hnf _)]
    rw [ih (retry + 1) (s + 1) (fun i hi => by
      have := h (i + 1) (by omega)
      simpa [Nat.add_assoc, Nat.add_comm 1 i] using this)]
    have harith : ∀ i : ℕ, retry + 1 + i = retry + (i + 1) := fun i => by omega
    have harith2 : ∀ i : ℕ, s + 1 + i = s + (i + 1) := fun i => by omega
    simp [ReqTrace.mk.injEq, List.range_succ_eq_map, List.map_map,
      Function.comp, harith, harith2]

/-- When the first `k` responses are 429/503 and the `(k+1)`-st is not,
the transport loop performs `k` backoff sleeps and then settles the
`(k+1)`-st response: `raise_for_status` on a 4xx/5xx, parsing
otherwise. -/
theorem requestGo_stop_after (nf : NotifyMsg → Option Exc)
    (resp : ℕ → HttpResponse) (jitr : ℕ → ℚ) (hnf : ∀ m, nf m = none) :
    ∀ k retry fuel s, k < fuel →
    (∀ i, i < k → retryable (resp (s + i)).status = true) →
    retryable (resp (s + k)).status = false →
    requestGo nf resp jitr retry fuel s =
      ⟨k + 1,
       (List.range k).map (fun i => 2 ^ (retry + i) + jitr (retry + i)),
       (List.range k).map (fun i =>
         .transportWait (resp (s + i)).status
           (2 ^ (retry + i) + jitr (retry + i))),
       stopResult (resp (s + k))⟩ := by
  intro k
  induction k with
  | zero =>
    intro retry fuel s hlt _ hstop
    obtain ⟨fuel', rfl⟩ : ∃ f, fuel = f + 1 :=
      ⟨fuel - 1, by omega⟩
    rw [requestGo_stop nf resp jitr retry fuel' s (by simpa using hstop)]
    simp
  | succ k ih =>
    intro retry fuel s hlt hpre hstop
    obtain ⟨fuel', rfl⟩ : ∃ f, fuel = f + 1 :=
      ⟨fuel - 1, by omega⟩
    have h0 : retryable (resp s).status = true := by
      have := hpre 0 (by omega)
      simpa using this
    rw [requestGo_retry nf resp jitr retry fuel' s h0 (hnf _)]
    rw [ih (retry + 1) fuel' (s + 1) (by omega)
      (fun i hi => by
        have := hpre (i + 1) (by omega)
        simpa [Nat.add_assoc, Nat.add_comm 1 i] using this)
      (by
        have : s + 1 + k = s + (k + 1) := by omega
        rw [this]; exact hstop)]
    have harith : ∀ i : ℕ, retry + 1 + i = retry + (i + 1) := fun i => by omega
    have harith2 : ∀ i : ℕ, s + 1 + i = s + (i + 1) := fun i => by omega
    simp [ReqTrace.mk.injEq, List.range_succ_eq_map, List.map_map,
      Function.comp, harith, harith2]

/-! ## Helper lemmas about parsing and the content loop -/

theorem candidatesOf_error {b : Json} {e : Exc}
    (h : candidatesOf b = .error e) : e = .attrError := by
  cases b <;> simp [candidatesOf, jsonGet] at h <;> simp [h]

/-- If `_extract_text` returns (rather than raising), so does
`_extract_finish_reason`: both walk the same `candidates[0]` prefix, and
the only uncaught exception is the `AttributeError` of a `.get` on a
non-dict, which the text extraction would have hit first. -/
theorem finish_ok_of_text_ok {b : Json} {x : Option Json}
    (h : _extract_text b = .ok x) :
    ∃ fr, _extract_finish_reason b = .ok fr := by
  unfold _extract_text textBody at h
  unfold _extract_finish_reason frBody
  cases hc : candidatesOf b with
  | error e =>
    have he := candidatesOf_error hc
    subst he
    simp [hc, catchKTI] at h
  | ok cands =>
    simp only [hc] at h ⊢
    by_cases ht : pyTruthy cands
    · simp only [ht, Bool.not_true, Bool.false_eq_true, if_false] at h ⊢
      cases hj : jIndex0 cands with
      | error e =>
        simp only [hj] at h ⊢
        cases e <;> simp [catchKTI] at h ⊢
      | ok c0 =>
        simp only [hj] at h ⊢
        cases c0 <;> simp [jsonGet, catchKTI] at h ⊢
    · simp [ht, catchKTI]

theorem contentGo_zero (nf : NotifyMsg → Option Exc)
    (resp : ℕ → HttpResponse) (jit : ℕ → ℕ → ℚ) (a s : ℕ)
    (hnf : nf .contentExhausted = none) :
    contentGo nf resp jit a 0 s =
      ⟨0, [], [.contentExhausted], [], .nullResult⟩ := by
  simp [contentGo, hnf]

theorem contentGo_exc (nf : NotifyMsg → Option Exc)
    (resp : ℕ → HttpResponse) (jit : ℕ → ℕ → ℚ) (a fuel s : ℕ) (e : Exc)
    (h : (requestGo nf resp (jit a) 0 5 s).result = .exc e) :
    contentGo nf resp jit a (fuel + 1) s =
      ⟨(requestGo nf resp (jit a) 0 5 s).calls, [tempOf a],
       (requestGo nf resp (jit a) 0 5 s).notes,
       (requestGo nf resp (jit a) 0 5 s).sleeps, .exc e⟩ := by
  simp [contentGo, h]

theorem contentGo_textNone (nf : NotifyMsg → Option Exc)
    (resp : ℕ → HttpResponse) (jit : ℕ → ℕ → ℚ) (a fuel s : ℕ)
    (fr : Option Json) (hnf : nf .partsMissing = none)
    (h : (requestGo nf resp (jit a) 0 5 s).result = .okr none fr) :
    contentGo nf resp jit a (fuel + 1) s =
      ⟨(requestGo nf resp (jit a) 0 5 s).calls, [tempOf a],
       (requestGo nf resp (jit a) 0 5 s).notes ++ [.partsMissing],
       (requestGo nf resp (jit a) 0 5 s).sleeps, .nullResult⟩ := by
  simp [contentGo, h, hnf]

theorem contentGo_accept (nf : NotifyMsg → Option Exc)
    (resp : ℕ → HttpResponse) (jit : ℕ → ℕ → ℚ) (a fuel s : ℕ)
    (t : Json) (fr : Option Json)
    (h : (requestGo nf resp (jit a) 0 5 s).result = .okr (some t) fr)
    (hfr : acceptReason fr = .ok true)
    (hrep : pyIsRepetitiveJson t = .ok false) :
    contentGo nf resp jit a (fuel + 1) s =
      ⟨(requestGo nf resp (jit a) 0 5 s).calls, [tempOf a],
       (requestGo nf resp (jit a) 0 5 s).notes,
       (requestGo nf resp (jit a) 0 5 s).sleeps, .accepted t⟩ := by
  simp [contentGo, h, hfr, hrep]

theorem contentGo_reject (nf : NotifyMsg → Option Exc)
    (resp : ℕ → HttpResponse) (jit : ℕ → ℕ → ℚ) (a fuel s : ℕ)
    (t : Json) (fr : Option Json)
    (hnf : nf (.badFinish fr a) = none)
    (h : (requestGo nf resp (jit a) 0 5 s).result = .okr (some t) fr)
    (hfr : acceptReason fr = .ok false) :
    contentGo nf resp jit a (fuel + 1) s =
      ⟨(requestGo nf resp (jit a) 0 5 s).calls +
         (contentGo nf resp jit (a + 1) fuel
           (s + (requestGo nf resp (jit a) 0 5 s).calls)).genCalls,
       tempOf a ::
         (contentGo nf resp jit (a + 1) fuel
           (s + (requestGo nf resp (jit a) 0 5 s).calls)).temps,
       (requestGo nf resp (jit a) 0 5 s).notes ++ [.badFinish fr a] ++
         (contentGo nf resp jit (a + 1) fuel
           (s + (requestGo nf resp (jit a) 0 5 s).calls)).notes,
       (requestGo nf resp (jit a) 0 5 s).sleeps ++
         (contentGo nf resp jit (a + 1) fuel
           (s + (requestGo nf resp (jit a) 0 5 s).calls)).sleeps,
       (contentGo nf resp jit (a + 1) fuel
         (s + (requestGo nf resp (jit a) 0 5 s).calls)).result⟩ := by
  simp [contentGo, h, hfr, hnf]

theorem contentGo_repet (nf : NotifyMsg → Option Exc)
    (resp : ℕ → HttpResponse) (jit : ℕ → ℕ → ℚ) (a fuel s : ℕ)
    (t : Json) (fr : Option Json)
    (hnf : nf (.repetitiveText a) = none)
    (h : (requestGo nf resp (jit a) 0 5 s).result = .okr (some t) fr)
    (hfr : acceptReason fr = .ok true)
    (hrep : pyIsRepetitiveJson t = .ok true) :
    contentGo nf resp jit a (fuel + 1) s =
      ⟨(requestGo nf resp (jit a) 0 5 s).calls +
         (contentGo nf resp jit (a + 1) fuel
           (s + (requestGo nf resp (jit a) 0 5 s).calls)).genCalls,
       tempOf a ::
         (contentGo nf resp jit (a + 1) fuel
           (s + (requestGo nf resp (jit a) 0 5 s).calls)).temps,
       (requestGo nf resp (jit a) 0 5 s).notes ++ [.repetitiveText a] ++
         (contentGo nf resp jit (a + 1) fuel
           (s + (requestGo nf resp (jit a) 0 5 s).calls)).notes,
       (requestGo nf resp (jit a) 0 5 s).sleeps ++
         (contentGo nf resp jit (a + 1) fuel
           (s + (requestGo nf resp (jit a) 0 5 s).calls)).sleeps,
       (contentGo nf resp jit (a + 1) fuel
         (s + (requestGo nf resp (jit a) 0 5 s).calls)).result⟩ := by
  simp [contentGo, h, hfr, hrep, hnf]

theorem contentGo_frexc (nf : NotifyMsg → Option Exc)
    (resp : ℕ → HttpResponse) (jit : ℕ → ℕ → ℚ) (a fuel s : ℕ)
    (t : Json) (fr : Option Json) (e : Exc)
    (h : (requestGo nf resp (jit a) 0 5 s).result = .okr (some t) fr)
    (hfr : acceptReason fr = .error e) :
    contentGo nf resp jit a (fuel + 1) s =
      ⟨(requestGo nf resp (jit a) 0 5 s).calls, [tempOf a],
       (requestGo nf resp (jit a) 0 5 s).notes,
       (requestGo nf resp (jit a) 0 5 s).sleeps, .exc e⟩ := by
  simp [contentGo, h, hfr]

theorem summarize_audio_eq (nf : NotifyMsg → Option Exc)
    (mp3_bytes : List ℕ) (prompt uploadUri : String)
    (resp : ℕ → HttpResponse) (jit : ℕ → ℕ → ℚ) :
    summarize_audio nf mp3_bytes prompt uploadUri resp jit =
      ⟨(_build_parts mp3_bytes uploadUri).2,
       (_build_parts mp3_bytes uploadUri).1 ++ [GPart.textPart prompt],
       (contentGo nf resp jit 0 3 0).genCalls,
       (contentGo nf resp jit 0 3 0).temps,
       (contentGo nf resp jit 0 3 0).notes,
       (contentGo nf resp jit 0 3 0).sleeps,
       (contentGo nf resp jit 0 3 0).result⟩ := rfl

/-- A non-retryable, non-error status response settles in one POST with
no sleeps, and parses via both extraction helpers. -/
theorem requestGo_settle (nf : NotifyMsg → Option Exc)
    (resp : ℕ → HttpResponse) (jitr : ℕ → ℚ) (fuel s : ℕ)
    (x fr : Option Json)
    (hretry : retryable (resp s).status = false)
    (herr : isErrStatus (resp s).status = false)
    (htext : _extract_text (resp s).body = .ok x)
    (hfr : _extract_finish_reason (resp s).body = .ok fr) :
    requestGo nf resp jitr 0 (fuel + 1) s = ⟨1, [], [], .okr x fr⟩ := by
  rw [requestGo_stop nf resp jitr 0 fuel s hretry]
  simp [stopResult, herr, htext, hfr]

/-- An HTTP 200 status is neither retryable nor an error status. -/
theorem status200_clean : retryable 200 = false ∧ isErrStatus 200 = false := by
  decide

/-- A stream of cleanly-parsing 200 responses whose extracted texts are
the strings `t n` and whose finish reasons are `fr n`. -/
def cleanStream (resp : ℕ → HttpResponse) (t : ℕ → String)
    (fr : ℕ → Option Json) : Prop :=
  ∀ n, (resp n).status = 200 ∧
    _extract_text (resp n).body = .ok (some (.jstr (t n))) ∧
    _extract_finish_reason (resp n).body = .ok (fr n)

theorem requestGo_settle_clean (nf : NotifyMsg → Option Exc)
    (resp : ℕ → HttpResponse) (jitr : ℕ → ℚ) (fuel s : ℕ)
    (t : ℕ → String) (fr : ℕ → Option Json)
    (hc : cleanStream resp t fr) :
    requestGo nf resp jitr 0 (fuel + 1) s =
      ⟨1, [], [], .okr (some (.jstr (t s))) (fr s)⟩ := by
  obtain ⟨h200, htext, hfr⟩ := hc s
  exact requestGo_settle nf resp jitr fuel s _ _
    (by rw [h200]; exact status200_clean.1)
    (by rw [h200]; exact status200_clean.2) htext hfr

theorem requestGo_settle_clean5 (nf : NotifyMsg → Option Exc)
    (resp : ℕ → HttpResponse) (jitr : ℕ → ℚ) (s : ℕ)
    (t : ℕ → String) (fr : ℕ → Option Json)
    (hc : cleanStream resp t fr) :
    requestGo nf resp jitr 0 5 s =
      ⟨1, [], [], .okr (some (.jstr (t s))) (fr s)⟩ := by
  have h := requestGo_settle_clean nf resp jitr 4 s t fr hc
  norm_num at h
  exact h

/-- On a clean stream, if the finish reasons of the first `k` responses
from `s` are rejected and the `(k+1)`-st is accepted with a
non-repetitive text, the content loop accepts that text after `k + 1`
attempts (one generation POST and one temperature each). -/
theorem contentGo_accept_after (nf : NotifyMsg → Option Exc)
    (resp : ℕ → HttpResponse) (jit : ℕ → ℕ → ℚ)
    (t : ℕ → String) (fr : ℕ → Option Json)
    (hnf : ∀ m, nf m = none) (hc : cleanStream resp t fr) :
    ∀ k a fuel s, k < fuel →
    (∀ i, i < k → acceptReason (fr (s + i)) = .ok false) →
    acceptReason (fr (s + k)) = .ok true →
    is_repetitive (t (s + k)) = false →
    (contentGo nf resp jit a fuel s).result =
      .accepted (.jstr (t (s + k))) ∧
    (contentGo nf resp jit a fuel s).genCalls = k + 1 ∧
    (contentGo nf resp jit a fuel s).temps.length = k + 1 := by
  intro k
  induction k with
  | zero =>
    intro a fuel s hlt hpre hok hrep
    obtain ⟨fuel2, rfl⟩ : ∃ f, fuel = f + 1 := ⟨fuel - 1, by omega⟩
    have hrq := requestGo_settle_clean5 nf resp (jit a) s t fr hc
    rw [contentGo_accept nf resp jit a fuel2 s (.jstr (t s)) (fr s)
      (by rw [hrq]) (by simpa using hok)
      (by simp [pyIsRepetitiveJson]; simpa using hrep)]
    simp [hrq]
  | succ k ih =>
    intro a fuel s hlt hpre hok hrep
    obtain ⟨fuel2, rfl⟩ : ∃ f, fuel = f + 1 := ⟨fuel - 1, by omega⟩
    have hrq := requestGo_settle_clean5 nf resp (jit a) s t fr hc
    have h0 : acceptReason (fr s) = .ok false := by
      have := hpre 0 (by omega)
      simpa using this
    rw [contentGo_reject nf resp jit a fuel2 s (.jstr (t s)) (fr s)
      (hnf _) (by rw [hrq]) h0, hrq]
    have hs1 : s + 1 + k = s + (k + 1) := by omega
    obtain ⟨ih1, ih2, ih3⟩ := ih (a + 1) fuel2 (s + 1) (by omega)
      (fun i hi => by
        have := hpre (i + 1) (by omega)
        simpa [Nat.add_assoc, Nat.add_comm 1 i] using this)
      (by rw [hs1]; exact hok)
      (by rw [hs1]; exact hrep)
    rw [hs1] at ih1
    refine ⟨by simpa using ih1, by simp [ih2]; omega, by simp [ih3]⟩

/-- On a clean stream whose finish reasons are all rejected from `s` on,
the content loop burns all its attempts and returns the `None`
outcome. -/
theorem contentGo_reject_all (nf : NotifyMsg → Option Exc)
    (resp : ℕ → HttpResponse) (jit : ℕ → ℕ → ℚ)
    (t : ℕ → String) (fr : ℕ → Option Json)
    (hnf : ∀ m, nf m = none) (hc : cleanStream resp t fr) :
    ∀ fuel a s,
    (∀ i, i < fuel → acceptReason (fr (s + i)) = .ok false) →
    (contentGo nf resp jit a fuel s).result = .nullResult ∧
    (contentGo nf resp jit a fuel s).genCalls = fuel ∧
    (contentGo nf resp jit a fuel s).temps.length = fuel := by
  intro fuel
  induction fuel with
  | zero =>
    intro a s _
    rw [contentGo_zero nf resp jit a s (hnf _)]
    simp
  | succ fuel ih =>
    intro a s hpre
    have hrq := requestGo_settle_clean5 nf resp (jit a) s t fr hc
    have h0 : acceptReason (fr s) = .ok false := by
      have := hpre 0 (by omega)
      simpa using this
    rw [contentGo_reject nf resp jit a fuel s (.jstr (t s)) (fr s)
      (hnf _) (by rw [hrq]) h0, hrq]
    obtain ⟨ih1, ih2, ih3⟩ := ih (a + 1) (s + 1)
      (fun i hi => by
        have := hpre (i + 1) (by omega)
        simpa [Nat.add_assoc, Nat.add_comm 1 i] using this)
    refine ⟨by simpa using ih1, by simp [ih2]; omega, by simp [ih3]⟩

/-- Whatever the stream, notifier and jitter, the list of temperatures
sent by the content loop starting at attempt `a` is an initial segment
of `tempOf a, tempOf (a+1), ...`. -/
theorem contentGo_temps (nf : NotifyMsg → Option Exc)
    (resp : ℕ → HttpResponse) (jit : ℕ → ℕ → ℚ) : ∀ fuel a s,
    ∃ n, n ≤ fuel ∧
      (contentGo nf resp jit a fuel s).temps =
        (List.range n).map (fun i => tempOf (a + i)) := by
  intro fuel
  induction fuel with
  | zero =>
    intro a s
    refine ⟨0, Nat.le_refl 0, ?_⟩
    cases hnf : nf .contentExhausted <;> simp [contentGo, hnf]
  | succ fuel ih =>
    intro a s
    have hcons : ∀ s' : ℕ, ∃ n, n ≤ fuel + 1 ∧
        tempOf a :: (contentGo nf resp jit (a + 1) fuel s').temps =
          (List.range n).map (fun i => tempOf (a + i)) := by
      intro s'
      obtain ⟨n, hn, ht⟩ := ih (a + 1) s'
      refine ⟨n + 1, by omega, ?_⟩
      rw [ht, List.range_succ_eq_map, List.map_cons, List.map_map]
      have harith : ∀ i : ℕ, a + 1 + i = a + (i + 1) := fun i => by omega
      simp [Function.comp, harith]
    cases hres : (requestGo nf resp (jit a) 0 5 s).result with
    | exc e => exact ⟨1, by omega, by simp [contentGo, List.range_succ, hres]⟩
    | okr x frv =>
      cases x with
      | none =>
        cases hn : nf .partsMissing with
        | some e => exact ⟨1, by omega, by simp [contentGo, List.range_succ, hres, hn]⟩
        | none => exact ⟨1, by omega, by simp [contentGo, List.range_succ, hres, hn]⟩
      | some t =>
        cases hacc : acceptReason frv with
        | error e2 =>
          exact ⟨1, by omega, by
            simp [contentGo, List.range_succ, hres, hacc]⟩
        | ok bb2 =>
          cases bb2 with
          | true =>
            cases hrep : pyIsRepetitiveJson t with
            | error e =>
              exact ⟨1, by omega, by
                simp [contentGo, List.range_succ, hres, hacc, hrep]⟩
            | ok bb =>
              cases bb with
              | false =>
                exact ⟨1, by omega, by
                  simp [contentGo, List.range_succ, hres, hacc, hrep]⟩
              | true =>
                cases hn : nf (.repetitiveText a) with
                | some e =>
                  exact ⟨1, by omega, by
                    simp [contentGo, List.range_succ, hres, hacc, hrep, hn]⟩
                | none =>
                  obtain ⟨n, hn2, ht⟩ :=
                    hcons (s + (requestGo nf resp (jit a) 0 5 s).calls)
                  exact ⟨n, hn2, by
                    rw [← ht]
                    simp [contentGo, List.range_succ, hres, hacc, hrep, hn]⟩
          | false =>
            cases hn : nf (.badFinish frv a) with
            | some e =>
              exact ⟨1, by omega, by
                simp [contentGo, List.range_succ, hres, hacc, hn]⟩
            | none =>
              obtain ⟨n, hn2, ht⟩ :=
                hcons (s + (requestGo nf resp (jit a) 0 5 s).calls)
              exact ⟨n, hn2, by
                rw [← ht]
                simp [contentGo, List.range_succ, hres, hacc, hn]⟩

/-! ## Concrete fixtures -/

/-- Zero jitter draw for every transport retry of every attempt. -/
def jit0 : ℕ → ℕ → ℚ := fun _ _ => 0

/-- Zero jitter draw, single-request form. -/
def jitr0 : ℕ → ℚ := fun _ => 0

/-- A notifier that raises on the missing-content notification. -/
def nfBoom : NotifyMsg → Option Exc := fun m =>
  match m with
  | .partsMissing => some .userExc
  | _ => none

/-- A notifier that never raises, distinct from `nfNoop`. -/
def nfQuiet : NotifyMsg → Option Exc := fun m =>
  match m with
  | .transportWait _ _ => none
  | .partsMissing => none
  | .badFinish _ _ => none
  | .repetitiveText _ => none
  | .contentExhausted => none

/-- A response body with an empty candidate list. -/
def bodyEmptyCand : Json := .jobj [("candidates", .jarr [])]

/-- A stream of 200 responses with no candidates. -/
def respEmptyCand : ℕ → HttpResponse := fun _ => ⟨200, bodyEmptyCand⟩

/-- A response body with `parts[0].text` set to `t` and, optionally, a
`finishReason`. -/
def bodyWith (t : String) (fr : Option String) : Json :=
  .jobj [("candidates", .jarr [
    .jobj ([("content", .jobj [("parts", .jarr [.jobj [("text", .jstr t)]])])]
      ++ (match fr with | some f => [("finishReason", .jstr f)] | none => []))])]

/-- Exactly 20 MiB of audio. -/
def bytes20MiB : List ℕ := List.replicate (20 * 1024 * 1024) 0

/-- One byte over 20 MiB of audio. -/
def bytesOver : List ℕ := List.replicate (20 * 1024 * 1024 + 1) 0

/-! ## The claims -/

/-- C8: `is_repetitive` returns false for every text shorter than 20
characters; in particular "あ" repeated 19 times is not repetitive,
while "あ" repeated 20 times and "こんにちは。" repeated 20 times
are. -/
theorem c8_short_text_threshold :
    (∀ s : String, s.length < 20 → is_repetitive s = false) ∧
    is_repetitive (String.mk (List.replicate 19 'あ')) = false ∧
    is_repetitive (String.mk (List.replicate 20 'あ')) = true ∧
    is_repetitive (String.join (List.replicate 20 "こんにちは。")) = true := by
  refine ⟨?_, by decide, by decide, by decide⟩
  intro s h
  have h2 : s.data.length < 20 := h
  simp only [is_repetitive]
  rw [if_pos h2]

theorem c8_short_text_threshold_witness :
    (("ab" : String).length < 20) ∧ is_repetitive "ab" = false :=
  ⟨by decide, c8_short_text_threshold.1 "ab" (by decide)⟩

/-- C9: for a text of length at least 20 on which the
consecutive-repetition layer does not fire, having at least 5 sentences
(after splitting on sentence-terminal punctuation and discarding empty
trimmed fragments) whose distinct-to-total fraction is below 0.4 makes
`is_repetitive` return true. -/
theorem c9_sentence_uniqueness (s : String)
    (h20 : 20 ≤ s.data.length)
    (hA : hasConsecutiveRepeat s.data = false)
    (hn : 5 ≤ (sentencesOf s.data).length)
    (hr : 5 * (sentencesOf s.data).dedup.length <
      2 * (sentencesOf s.data).length) :
    is_repetitive s = true := by
  have h2 : ¬ s.data.length < 20 := by omega
  have hB : layerB s.data = true := by simp [layerB, hn, hr]
  simp only [is_repetitive]
  rw [if_neg h2, if_neg (by simp [hA]), if_pos (by simp [hB])]

/-- Six sentences, two distinct, no consecutive repetition. -/
def c9text : String := "abcd.efgh.abcd.efgh.abcd.efgh"

theorem c9_sentence_uniqueness_witness :
    (20 ≤ c9text.data.length) ∧
    hasConsecutiveRepeat c9text.data = false ∧
    (5 ≤ (sentencesOf c9text.data).length) ∧
    (5 * (sentencesOf c9text.data).dedup.length <
      2 * (sentencesOf c9text.data).length) ∧
    is_repetitive c9text = true :=
  ⟨by decide, by decide, by decide, by decide,
   c9_sentence_uniqueness c9text (by decide) (by decide) (by decide)
     (by decide)⟩

/-- C1 counterexample: a payload of exactly 20 MiB — which the claim
places "at or above the threshold" — is embedded inline and the upload
endpoint is never called, because the source branches on a strict
`len(mp3_bytes) > 20 * 1024 * 1024`. -/
theorem c1_boundary_counterexample :
    bytes20MiB.length = 20 * 1024 * 1024 ∧
    _build_parts bytes20MiB "files/u" =
      ([GPart.inline_data "audio/mp3" (b64encode bytes20MiB)], 0) := by
  have hlen : bytes20MiB.length = 20 * 1024 * 1024 :=
    List.length_replicate _ _
  refine ⟨hlen, ?_⟩
  unfold _build_parts
  rw [hlen, if_neg (by omega)]

/-- C1 amended: the out-of-band upload happens exactly when the audio
is strictly larger than 20 MiB; then one upload POST is made before the
generation calls, and every generation payload references the returned
file URI followed by the prompt — never inline data.  At or below
20 MiB no upload call is made. -/
theorem c1_upload_threshold (bs : List ℕ) (uri prompt : String)
    (nf : NotifyMsg → Option Exc) (resp : ℕ → HttpResponse)
    (jit : ℕ → ℕ → ℚ) :
    (20 * 1024 * 1024 < bs.length →
      _build_parts bs uri = ([GPart.file_data uri], 1) ∧
      (summarize_audio nf bs prompt uri resp jit).uploadCalls = 1 ∧
      (summarize_audio nf bs prompt uri resp jit).parts =
        [GPart.file_data uri, GPart.textPart prompt]) ∧
    (bs.length ≤ 20 * 1024 * 1024 →
      (_build_parts bs uri).2 = 0 ∧
      (summarize_audio nf bs prompt uri resp jit).uploadCalls = 0) := by
  constructor
  · intro h
    have hb : _build_parts bs uri = ([GPart.file_data uri], 1) := by
      simp [_build_parts, h]
    refine ⟨hb, ?_, ?_⟩ <;> rw [summarize_audio_eq] <;> simp [hb]
  · intro h
    have hfalse : ¬ (20 * 1024 * 1024 < bs.length) := by omega
    have hb : _build_parts bs uri =
        ([GPart.inline_data "audio/mp3" (b64encode bs)], 0) := by
      simp [_build_parts, hfalse]
    refine ⟨by simp [hb], ?_⟩
    rw [summarize_audio_eq]
    simp [hb]

theorem c1_upload_threshold_witness :
    (20 * 1024 * 1024 < bytesOver.length) ∧
    _build_parts bytesOver "files/u" = ([GPart.file_data "files/u"], 1) := by
  have hlen : bytesOver.length = 20 * 1024 * 1024 + 1 :=
    List.length_replicate _ _
  have h : 20 * 1024 * 1024 < bytesOver.length := by omega
  exact ⟨h,
    ((c1_upload_threshold bytesOver "files/u" "p" nfNoop respEmptyCand
      jit0).1 h).1⟩

/-- C7: audio strictly below 20 MiB is embedded inline — the upload
endpoint is never called — and base64-decoding the inline payload
recovers exactly the original bytes. -/
theorem c7_inline_roundtrip (bs : List ℕ) (uri prompt : String)
    (nf : NotifyMsg → Option Exc) (resp : ℕ → HttpResponse)
    (jit : ℕ → ℕ → ℚ)
    (hlen : bs.length < 20 * 1024 * 1024)
    (hbytes : ∀ b ∈ bs, b < 256) :
    _build_parts bs uri =
      ([GPart.inline_data "audio/mp3" (b64encode bs)], 0) ∧
    b64decode (b64encode bs) = bs ∧
    (summarize_audio nf bs prompt uri resp jit).uploadCalls = 0 ∧
    (summarize_audio nf bs prompt uri resp jit).parts =
      [GPart.inline_data "audio/mp3" (b64encode bs),
       GPart.textPart prompt] := by
  have hfalse : ¬ (20 * 1024 * 1024 < bs.length) := by omega
  have hb : _build_parts bs uri =
      ([GPart.inline_data "audio/mp3" (b64encode bs)], 0) := by
    simp [_build_parts, hfalse]
  refine ⟨hb, b64_roundtrip bs hbytes, ?_, ?_⟩ <;>
    rw [summarize_audio_eq] <;> simp [hb]

theorem c7_inline_roundtrip_witness :
    (([104, 105] : List ℕ).length < 20 * 1024 * 1024) ∧
    (∀ b ∈ ([104, 105] : List ℕ), b < 256) ∧
    b64decode (b64encode [104, 105]) = [104, 105] :=
  ⟨by decide, by decide,
   (c7_inline_roundtrip [104, 105] "u" "p" nfNoop respEmptyCand jit0
     (by decide) (by decide)).2.1⟩

/-- C2 counterexample: with a notifier that raises on the
missing-content notification, the exception escapes `summarize_audio`
(the source calls the injected notifier bare, with no `try/except`),
whereas the identical call with the no-op notifier returns the `None`
outcome. -/
theorem c2_notifier_counterexample :
    (summarize_audio nfBoom [1] "p" "u" respEmptyCand jit0).result =
      .exc .userExc ∧
    (summarize_audio nfNoop [1] "p" "u" respEmptyCand jit0).result =
      .nullResult :=
  ⟨rfl, rfl⟩

/-- C2 amended: a notifier that never raises cannot change anything —
the whole trace of `summarize_audio` equals the no-op-notifier trace —
but an exception raised inside the notifier propagates out of the
summarization flow (exhibited by the counterexample above). -/
theorem c2_nonraising_notifier (nf : NotifyMsg → Option Exc)
    (mp3 : List ℕ) (prompt uri : String) (resp : ℕ → HttpResponse)
    (jit : ℕ → ℕ → ℚ) (hnf : ∀ m, nf m = none) :
    summarize_audio nf mp3 prompt uri resp jit =
      summarize_audio nfNoop mp3 prompt uri resp jit := by
  have h : nf = nfNoop := funext fun m => (hnf m).trans rfl
  rw [h]

theorem c2_nonraising_notifier_witness :
    (∀ m, nfQuiet m = none) ∧
    summarize_audio nfQuiet [1] "p" "u" respEmptyCand jit0 =
      summarize_audio nfNoop [1] "p" "u" respEmptyCand jit0 :=
  ⟨fun m => by cases m <;> rfl,
   c2_nonraising_notifier nfQuiet [1] "p" "u" respEmptyCand jit0
     (fun m => by cases m <;> rfl)⟩

/-- A 304 response with a parsable body. -/
def resp304 : ℕ → HttpResponse := fun _ => ⟨304, bodyWith "ok" none⟩

/-- Two rate-limited responses followed by a 500. -/
def resp500 : ℕ → HttpResponse := fun n =>
  if n < 2 then ⟨429, .null⟩ else ⟨500, .null⟩

/-- C3 amended: within one `_request`, a 429/503 response is retried
after a backoff of `2^attempt + jitter(attempt)` seconds for at most 5
transport attempts, and exhausting all 5 raises the exhaustion error;
the first response whose status is not 429/503 ends the loop at once —
a 4xx/5xx status raises `HTTPError` immediately (never converted to the
`None` outcome: a transport exception propagates out of
`summarize_audio` unchanged), while any other status (2xx, but also
3xx, on which `raise_for_status` does not raise) proceeds to response
parsing. -/
theorem c3_transport_retry (nf : NotifyMsg → Option Exc)
    (resp : ℕ → HttpResponse) (jitr : ℕ → ℚ) (s : ℕ)
    (hnf : ∀ m, nf m = none) :
    ((∀ i, i < 5 → retryable (resp (s + i)).status = true) →
      _request nf resp jitr s =
        ⟨5, (List.range 5).map (fun i => 2 ^ i + jitr i),
         (List.range 5).map (fun i =>
           .transportWait (resp (s + i)).status (2 ^ i + jitr i)),
         .exc .runtimeError⟩) ∧
    (∀ k, k < 5 → (∀ i, i < k → retryable (resp (s + i)).status = true) →
      retryable (resp (s + k)).status = false →
      _request nf resp jitr s =
        ⟨k + 1, (List.range k).map (fun i => 2 ^ i + jitr i),
         (List.range k).map (fun i =>
           .transportWait (resp (s + i)).status (2 ^ i + jitr i)),
         stopResult (resp (s + k))⟩) ∧
    (∀ r : HttpResponse, isErrStatus r.status = true →
      stopResult r = .exc (.httpError r.status)) ∧
    (∀ r : HttpResponse, isErrStatus r.status = false → ∀ x fr,
      _extract_text r.body = .ok x →
      _extract_finish_reason r.body = .ok fr →
      stopResult r = .okr x fr) ∧
    (∀ (jit : ℕ → ℕ → ℚ) (mp3 : List ℕ) (prompt uri : String) (e : Exc),
      (_request nf resp (jit 0) 0).result = .exc e →
      (summarize_audio nf mp3 prompt uri resp jit).result = .exc e) := by
  refine ⟨?_, ?_, ?_, ?_, ?_⟩
  · intro h
    have h2 := requestGo_all_retry nf resp jitr hnf 5 0 s h
    simpa [_request] using h2
  · intro k hk hpre hstop
    have h2 := requestGo_stop_after nf resp jitr hnf k 0 5 s hk hpre hstop
    simpa [_request] using h2
  · intro r h
    simp [stopResult, h]
  · intro r h x fr hx hfr
    simp [stopResult, h, hx, hfr]
  · intro jit mp3 prompt uri e he
    have h := contentGo_exc nf resp jit 0 2 0 e he
    norm_num at h
    rw [summarize_audio_eq]
    simp [h]

/-- C3 counterexample: HTTP 304 is not a 2xx status and not 429/503,
yet `_request` neither raises a fatal error nor retries: the body is
parsed as on success, because `raise_for_status` raises only on
4xx/5xx. -/
theorem c3_non2xx_counterexample :
    (resp304 0).status = 304 ∧
    ¬ (200 ≤ (resp304 0).status ∧ (resp304 0).status < 300) ∧
    retryable (resp304 0).status = false ∧
    (_request nfNoop resp304 jitr0 0).result =
      .okr (some (.jstr "ok")) none :=
  ⟨rfl, by decide, by decide, rfl⟩

theorem c3_transport_retry_witness :
    (∀ i, i < 2 → retryable (resp500 (0 + i)).status = true) ∧
    retryable (resp500 (0 + 2)).status = false ∧
    _request nfNoop resp500 jitr0 0 =
      ⟨2 + 1, (List.range 2).map (fun i => 2 ^ i + jitr0 i),
       (List.range 2).map (fun i =>
         .transportWait (resp500 (0 + i)).status (2 ^ i + jitr0 i)),
       stopResult (resp500 (0 + 2))⟩ := by
  have hpre : ∀ i, i < 2 → retryable (resp500 (0 + i)).status = true := by
    intro i hi
    interval_cases i <;> decide
  exact ⟨hpre, by decide,
    (c3_transport_retry nfNoop resp500 jitr0 0 (fun _ => rfl)).2.1 2
      (by omega) hpre (by decide)⟩

/-- C6: whenever the parsed response yields no text, `summarize_audio`
returns the `None` outcome immediately: exactly one generation POST,
one content attempt (one temperature), no exception raised and no
content-quality retry consumed. -/
theorem c6_no_text_returns_null (nf : NotifyMsg → Option Exc)
    (resp : ℕ → HttpResponse) (jit : ℕ → ℕ → ℚ)
    (mp3 : List ℕ) (prompt uri : String)
    (hnf : ∀ m, nf m = none)
    (h200 : (resp 0).status = 200)
    (hex : _extract_text (resp 0).body = .ok none) :
    (summarize_audio nf mp3 prompt uri resp jit).result = .nullResult ∧
    (summarize_audio nf mp3 prompt uri resp jit).genCalls = 1 ∧
    (summarize_audio nf mp3 prompt uri resp jit).temps = [tempOf 0] := by
  obtain ⟨fr, hfr⟩ := finish_ok_of_text_ok hex
  have hrq : requestGo nf resp (jit 0) 0 5 0 = ⟨1, [], [], .okr none fr⟩ := by
    have h := requestGo_settle nf resp (jit 0) 4 0 none fr
      (by rw [h200]; exact status200_clean.1)
      (by rw [h200]; exact status200_clean.2) hex hfr
    norm_num at h
    exact h
  have h := contentGo_textNone nf resp jit 0 2 0 fr (hnf _) (by rw [hrq])
  norm_num at h
  rw [summarize_audio_eq, h]
  simp [hrq]

theorem c6_no_text_returns_null_witness :
    (respEmptyCand 0).status = 200 ∧
    _extract_text (respEmptyCand 0).body = .ok none ∧
    (summarize_audio nfNoop [1] "p" "u" respEmptyCand jit0).result =
      .nullResult ∧
    (summarize_audio nfNoop [1] "p" "u" respEmptyCand jit0).genCalls = 1 := by
  have h := c6_no_text_returns_null nfNoop respEmptyCand jit0 [1] "p" "u"
    (fun _ => rfl) rfl rfl
  exact ⟨rfl, rfl, h.1, h.2.1⟩

/-- A 200 response whose text field is present but empty, with finish
reason STOP. -/
def respEmptyText : ℕ → HttpResponse := fun _ => ⟨200, bodyWith "" (some "STOP")⟩

/-- C10: a present-but-empty text field with an acceptable finish
reason is returned as the accepted result: the empty string counts as
text presence, not absence, and the detector classifies it as not
degenerate, so the `None` outcome is not taken. -/
theorem c10_empty_text_accepted (nf : NotifyMsg → Option Exc)
    (resp : ℕ → HttpResponse) (jit : ℕ → ℕ → ℚ)
    (mp3 : List ℕ) (prompt uri : String) (fr : Option Json)
    (hnf : ∀ m, nf m = none)
    (h200 : (resp 0).status = 200)
    (hex : _extract_text (resp 0).body = .ok (some (.jstr "")))
    (hfr : _extract_finish_reason (resp 0).body = .ok fr)
    (hacc : acceptReason fr = .ok true) :
    (summarize_audio nf mp3 prompt uri resp jit).result =
      .accepted (.jstr "") ∧
    (summarize_audio nf mp3 prompt uri resp jit).genCalls = 1 ∧
    is_repetitive "" = false := by
  have hrq : requestGo nf resp (jit 0) 0 5 0 =
      ⟨1, [], [], .okr (some (.jstr "")) fr⟩ := by
    have h := requestGo_settle nf resp (jit 0) 4 0 (some (.jstr "")) fr
      (by rw [h200]; exact status200_clean.1)
      (by rw [h200]; exact status200_clean.2) hex hfr
    norm_num at h
    exact h
  have hrep : pyIsRepetitiveJson (.jstr "") = .ok false := rfl
  have h := contentGo_accept nf resp jit 0 2 0 (.jstr "") fr
    (by rw [hrq]) hacc hrep
  norm_num at h
  rw [summarize_audio_eq, h]
  exact ⟨rfl, by simp [hrq], by decide⟩

theorem c10_empty_text_accepted_witness :
    (respEmptyText 0).status = 200 ∧
    _extract_text (respEmptyText 0).body = .ok (some (.jstr "")) ∧
    acceptReason (some (.jstr "STOP")) = .ok true ∧
    (summarize_audio nfNoop [1] "p" "u" respEmptyText jit0).result =
      .accepted (.jstr "") := by
  have h := c10_empty_text_accepted nfNoop respEmptyText jit0 [1] "p" "u"
    (some (.jstr "STOP")) (fun _ => rfl) rfl rfl rfl rfl
  exact ⟨rfl, rfl, rfl, h.1⟩

/-- C5: the generation config of the `i`-th content-quality attempt
(0-based, at most 3 attempts) carries temperature
`min(0.7 + i * 0.3, 2.0)`; the successive temperatures are therefore
strictly increasing (0.7, 1.0, 1.3) and never exceed the ceiling 2. -/
theorem c5_temperature_schedule (nf : NotifyMsg → Option Exc)
    (resp : ℕ → HttpResponse) (jit : ℕ → ℕ → ℚ)
    (mp3 : List ℕ) (prompt uri : String) :
    (summarize_audio nf mp3 prompt uri resp jit).temps.length ≤ 3 ∧
    (∀ i, i < (summarize_audio nf mp3 prompt uri resp jit).temps.length →
      (summarize_audio nf mp3 prompt uri resp jit).temps.getD i 0 =
        min (7/10 + (i : ℚ) * (3/10)) 2) ∧
    List.Pairwise (fun p q => p < q)
      (summarize_audio nf mp3 prompt uri resp jit).temps ∧
    (∀ q ∈ (summarize_audio nf mp3 prompt uri resp jit).temps, q ≤ 2) := by
  obtain ⟨n, hn, ht⟩ := contentGo_temps nf resp jit 3 0 0
  have htemps : (summarize_audio nf mp3 prompt uri resp jit).temps =
      (List.range n).map (fun i => tempOf i) := by
    rw [summarize_audio_eq]
    simpa using ht
  have e0 : tempOf 0 = 7/10 := by norm_num [tempOf, min_def]
  have e1 : tempOf 1 = 1 := by norm_num [tempOf, min_def]
  have e2 : tempOf 2 = 13/10 := by norm_num [tempOf, min_def]
  rw [htemps]
  interval_cases n
  · refine ⟨by simp, ?_, ?_, ?_⟩
    · intro i hi
      simp at hi
    · simp
    · intro q hq
      simp at hq
  · refine ⟨by simp, ?_, ?_, ?_⟩
    · intro i hi
      simp [Nat.lt_one_iff] at hi
      subst hi
      rfl
    · simp [List.range_succ]
    · intro q hq
      simp [List.range_succ, e0] at hq
      rw [hq]
      norm_num
  · refine ⟨by simp, ?_, ?_, ?_⟩
    · intro i hi
      simp at hi
      interval_cases i <;> rfl
    · simp [List.range_succ, List.pairwise_cons, e0, e1]
      norm_num
    · intro q hq
      simp [List.range_succ, e0, e1] at hq
      rcases hq with h | h <;> rw [h] <;> norm_num
  · refine ⟨by simp, ?_, ?_, ?_⟩
    · intro i hi
      simp at hi
      interval_cases i <;> rfl
    · simp [List.range_succ, List.pairwise_cons, e0, e1, e2]
      norm_num
    · intro q hq
      simp [List.range_succ, e0, e1, e2] at hq
      rcases hq with h | h | h <;> rw [h] <;> norm_num

theorem c5_temperature_schedule_witness :
    (0 < (summarize_audio nfNoop [1] "p" "u" respEmptyCand jit0).temps.length) ∧
    (summarize_audio nfNoop [1] "p" "u" respEmptyCand jit0).temps.getD 0 0 =
      min (7/10 + ((0 : ℕ) : ℚ) * (3/10)) 2 := by
  have hlen :
      (summarize_audio nfNoop [1] "p" "u" respEmptyCand jit0).temps.length
        = 1 := rfl
  refine ⟨by omega, ?_⟩
  exact (c5_temperature_schedule nfNoop respEmptyCand jit0 [1] "p" "u").2.1 0
    (by omega)

/-- C4 amended: on responses whose text is present, summarize accepts
the text at the first attempt whose finish reason is in
`{STOP, MAX_TOKENS, absent}` and whose text is not degenerate; a
present finish reason of any other string (or hashable) value — one on
which the `in _ACCEPT_REASONS` membership test evaluates to false —
consumes one of the 3 content attempts, after exhausting which
summarize returns the `None` outcome; a present unhashable finish
reason (a JSON array or object) instead makes the membership test
itself raise `TypeError`, which propagates out of summarize after that
single attempt; and the absent finish reason is classified exactly
like "STOP". -/
theorem c4_finish_reason_policy (nf : NotifyMsg → Option Exc)
    (resp : ℕ → HttpResponse) (jit : ℕ → ℕ → ℚ)
    (mp3 : List ℕ) (prompt uri : String)
    (t : ℕ → String) (fr : ℕ → Option Json)
    (hnf : ∀ m, nf m = none) (hc : cleanStream resp t fr) :
    (∀ k, k < 3 → (∀ i, i < k → acceptReason (fr i) = .ok false) →
      acceptReason (fr k) = .ok true → is_repetitive (t k) = false →
      (summarize_audio nf mp3 prompt uri resp jit).result =
        .accepted (.jstr (t k)) ∧
      (summarize_audio nf mp3 prompt uri resp jit).genCalls = k + 1) ∧
    ((∀ i, i < 3 → acceptReason (fr i) = .ok false) →
      (summarize_audio nf mp3 prompt uri resp jit).result = .nullResult ∧
      (summarize_audio nf mp3 prompt uri resp jit).genCalls = 3 ∧
      (summarize_audio nf mp3 prompt uri resp jit).temps.length = 3) ∧
    (∀ e, acceptReason (fr 0) = .error e →
      (summarize_audio nf mp3 prompt uri resp jit).result = .exc e ∧
      (summarize_audio nf mp3 prompt uri resp jit).genCalls = 1 ∧
      (summarize_audio nf mp3 prompt uri resp jit).temps.length = 1) ∧
    acceptReason none = acceptReason (some (.jstr "STOP")) := by
  refine ⟨?_, ?_, ?_, rfl⟩
  · intro k hk hpre hok hrep
    have h := contentGo_accept_after nf resp jit t fr hnf hc k 0 3 0 hk
      (fun i hi => by simpa using hpre i hi) (by simpa using hok)
      (by simpa using hrep)
    simp only [Nat.zero_add] at h
    rw [summarize_audio_eq]
    exact ⟨h.1, h.2.1⟩
  · intro hpre
    have h := contentGo_reject_all nf resp jit t fr hnf hc 3 0 0
      (fun i hi => by simpa using hpre i hi)
    rw [summarize_audio_eq]
    exact ⟨h.1, h.2.1, h.2.2⟩
  · intro e herr
    have hrq := requestGo_settle_clean5 nf resp (jit 0) 0 t fr hc
    have h := contentGo_frexc nf resp jit 0 2 0 (.jstr (t 0)) (fr 0) e
      (by rw [hrq]) herr
    norm_num at h
    rw [summarize_audio_eq, h]
    exact ⟨rfl, by simp [hrq], rfl⟩

/-- Texts of the RECITATION-twice-then-STOP stream. -/
def tRec : ℕ → String := fun n => if n < 2 then "bad" else "ok"

/-- Finish reasons of the RECITATION-twice-then-STOP stream. -/
def frRec : ℕ → Option Json := fun n =>
  if n < 2 then some (.jstr "RECITATION") else some (.jstr "STOP")

/-- Two RECITATION responses followed by a STOP response. -/
def respRecit : ℕ → HttpResponse := fun n =>
  if n < 2 then ⟨200, bodyWith "bad" (some "RECITATION")⟩
  else ⟨200, bodyWith "ok" (some "STOP")⟩

theorem respRecit_clean : cleanStream respRecit tRec frRec := by
  intro n
  by_cases h : n < 2
  · refine ⟨?_, ?_, ?_⟩ <;>
      simp only [respRecit, tRec, frRec, if_pos h] <;> rfl
  · refine ⟨?_, ?_, ?_⟩ <;>
      simp only [respRecit, tRec, frRec, if_neg h] <;> rfl

theorem c4_finish_reason_policy_witness :
    (∀ i, i < 2 → acceptReason (frRec i) = .ok false) ∧
    acceptReason (frRec 2) = .ok true ∧
    is_repetitive (tRec 2) = false ∧
    (summarize_audio nfNoop [1] "p" "u" respRecit jit0).result =
      .accepted (.jstr (tRec 2)) ∧
    (summarize_audio nfNoop [1] "p" "u" respRecit jit0).genCalls = 2 + 1 := by
  have happ := (c4_finish_reason_policy nfNoop respRecit jit0 [1] "p" "u"
      tRec frRec (fun _ => rfl) respRecit_clean).1 2 (by omega)
      (fun i hi => by interval_cases i <;> rfl) rfl (by decide)
  exact ⟨fun i hi => by interval_cases i <;> rfl, rfl, by decide,
    happ.1, happ.2⟩

/-- A 200 response whose text is present and whose `finishReason` is
the JSON array `[]` — a present value that is neither "STOP" nor
"MAX_TOKENS". -/
def respArrFr : ℕ → HttpResponse := fun _ =>
  ⟨200, .jobj [("candidates", .jarr [
    .jobj [("content", .jobj [("parts", .jarr [.jobj [("text", .jstr "x")]])]),
           ("finishReason", .jarr [])]])]⟩

/-- C4 counterexample: a response whose text is present and whose
finish reason is present and is "any other value" — here the JSON
array `[]` — is not retried with escalated temperature and does not
lead to `None`: `finish_reason not in _ACCEPT_REASONS` raises
`TypeError` (a set cannot test membership of an unhashable value),
which propagates out of `summarize_audio` after a single generation
call and a single content attempt. -/
theorem c4_unhashable_counterexample :
    _extract_text (respArrFr 0).body = .ok (some (.jstr "x")) ∧
    _extract_finish_reason (respArrFr 0).body = .ok (some (.jarr [])) ∧
    (some (Json.jarr []) ≠ (none : Option Json)) ∧
    (some (Json.jarr []) ≠ some (Json.jstr "STOP")) ∧
    (some (Json.jarr []) ≠ some (Json.jstr "MAX_TOKENS")) ∧
    (summarize_audio nfNoop [1] "p" "u" respArrFr jit0).result =
      .exc .typeError ∧
    (summarize_audio nfNoop [1] "p" "u" respArrFr jit0).genCalls = 1 ∧
    (summarize_audio nfNoop [1] "p" "u" respArrFr jit0).temps.length = 1 :=
  ⟨rfl, rfl, by simp, by simp, by simp, rfl, rfl, rfl⟩
